import Mathlib

/-!
Verification of `scripts/build.py` (miyagi-kids): a batch ETL script that
downloads a municipal CSV of events, reloads a sqlite table, and renders a
static HTML page.  Python strings are embedded as `List Char`; the sqlite
`events` table as a list of rows tagged with their auto-increment id; the
fallible download step as `Except`.  Every definition is translated from the
Python source; the one definition written from the spec's words instead is
marked in its doc comment.
-/

set_option maxRecDepth 8000

namespace MiyagiKids

/-- Python strings, embedded as lists of characters. -/
abbrev Str := List Char

/-- Shorthand turning a Lean string literal into the embedding's `Str`. -/
def str (s : String) : Str := s.data

/-- `begins l p`: the string `l` starts with `p`.  Helper for the embedding of
Python's substring operator `in`. -/
def begins : Str → Str → Bool
  | _, [] => true
  | [], _ :: _ => false
  | c :: l, d :: p => c = d && begins l p

/-- `containsL l p`: embedding of Python's `p in l` substring test. -/
def containsL : Str → Str → Bool
  | [], p => begins [] p
  | c :: l, p => begins (c :: l) p || containsL l p

/-- Embedding of Python's `a <= b` on strings: lexicographic comparison by
code point, a proper prefix comparing smaller.  `build.py` line 254 uses
`start_day >= today`, i.e. `strLe today start_day`. -/
def strLe : Str → Str → Bool
  | [], _ => true
  | _ :: _, [] => false
  | a :: l, b :: m => if a < b then true else if b < a then false else strLe l m

/-- Characters removed by Python's `str.strip()` (no argument): ASCII
whitespace plus the Unicode spaces relevant to this data source (NBSP and the
ideographic space U+3000). -/
def isPySpace (c : Char) : Bool :=
  c == ' ' || c == '\t' || c == '\n' || c == '\r' ||
  c == Char.ofNat 11 || c == Char.ofNat 12 ||
  c == Char.ofNat 0xA0 || c == Char.ofNat 0x3000

/-- Embedding of Python's `s.strip()`: drop leading and trailing whitespace. -/
def pyStrip (l : Str) : Str :=
  ((l.dropWhile isPySpace).reverse.dropWhile isPySpace).reverse

/-- Embedding of Python's `x or d` for an optional string `x` (as produced by
`dict.get`): the left value when it is present and non-empty (truthy),
otherwise the default. -/
def pyOrS (a : Option Str) (d : Str) : Str :=
  match a with
  | none => d
  | some s => if s.isEmpty then d else s

/-- Embedding of Python's `str.lower()` restricted to ASCII letters (the only
characters that matter for the `"<html"` probe, which is pure ASCII). -/
def pyLower (c : Char) : Char :=
  if 0x41 ≤ c.toNat ∧ c.toNat ≤ 0x5A then Char.ofNat (c.toNat + 32) else c

/-- Embedding of `html.escape(s, quote=True)` (build.py imports `escape` from
`html`) acting on a single character: `&`, `<`, `>`, `"` (U+0022) and `'`
(U+0027) become entities, every other character is kept.  Python applies the
five replacements sequentially starting with `&`, which is equivalent to this
character-by-character map. -/
def escapeChar (c : Char) : Str :=
  if c = '&' then str "&amp;"
  else if c = '<' then str "&lt;"
  else if c = '>' then str "&gt;"
  else if c = Char.ofNat 34 then str "&quot;"
  else if c = Char.ofNat 39 then str "&#x27;"
  else [c]

/-- Embedding of `html.escape` on a whole string. -/
def escapeL : Str → Str
  | [] => []
  | c :: l => escapeChar c ++ escapeL l

/-- Embedding of the Python slice `l[-n:]`: the last `n` elements (the whole
list when it is shorter). -/
def lastN (n : Nat) (l : List α) : List α := l.drop (l.length - n)

/-- Concatenation of a list of strings: embedding of the successive `+=` /
f-string concatenations in `build_site`. -/
def joinL : List Str → Str
  | [] => []
  | s :: l => s ++ joinL l

/-- Last character of a string, if any. -/
def lastC : Str → Option Char
  | [] => none
  | [c] => some c
  | _ :: c :: l => lastC (c :: l)

/-- Embedding of Python's `s.count("-")` for the single-character pattern used
at build.py line 249. -/
def hyphCount (l : Str) : Nat := l.count '-'

/-- Embedding of `s.replace("\n", " ").replace("\r", " ")` (build.py line
265): both are single-character replacements, hence a character map. -/
def nlSpace (c : Char) : Char := if c = '\n' || c = '\r' then ' ' else c

/-! ## The importer (build.py `import_sendai_events`, lines 130-182) -/

/-- One row as produced by `csv.DictReader`, restricted to the fields the
importer reads via `r.get(...)`: a missing column gives `none`.  `uid` stands
for the CSV column called `_id` in the source. -/
structure CsvRow where
  name : Option Str
  summary : Option Str
  startDate : Option Str
  locationName : Option Str
  detailedUrl : Option Str
  entity_id : Option Str
  uid : Option Str
deriving DecidableEq

/-- One row of the `events` table, in the column order of the INSERT at
build.py lines 159-178 (the auto-increment `id` column is kept separately,
see `DBState`). -/
structure EventRow where
  source : Str
  source_id : Str
  title : Str
  summary : Str
  url : Str
  start_at : Str
  area : Str
  venue_name : Str
  price_band : Str
  tags_json : Str
  kid_score : Nat
deriving DecidableEq

/-- build.py line 149: `text = title + summary` with `title` the stripped
name (line 139) and `summary` the raw summary field (line 143). -/
def textOf (r : CsvRow) : Str :=
  pyStrip (pyOrS r.name []) ++ pyOrS r.summary []

/-- The child-oriented keyword list of build.py line 153. -/
def kidKeywords : List Str :=
  [str "小学生", str "親子", str "子ども", str "体験", str "工作"]

/-- build.py line 153: `any(x in text for x in [...])`. -/
def kidMatch (r : CsvRow) : Bool :=
  kidKeywords.any (fun k => containsL (textOf r) k)

/-- build.py line 156: `"無料" in text`. -/
def freeMatch (r : CsvRow) : Bool := containsL (textOf r) (str "無料")

/-- `json.dumps(tags, ensure_ascii=False)` for the `tags` dict of build.py
lines 150-157: `elem` is inserted first (line 154), `free` second (line 157),
and `json.dumps` keeps insertion order with `", "` / `": "` separators. -/
def tagsJson (elem free : Bool) : Str :=
  if elem then
    if free then str "\x7b\"elem\": true, \"free\": true\x7d"
    else str "\x7b\"elem\": true\x7d"
  else
    if free then str "\x7b\"free\": true\x7d"
    else str "\x7b\x7d"

/-- The per-row body of the import loop (build.py lines 138-179): `none` when
the row is skipped by the title filter (lines 139-141), otherwise the row
inserted into `events` (lines 159-178). -/
def processRow (r : CsvRow) : Option EventRow :=
  if (pyStrip (pyOrS r.name [])).isEmpty then none
  else some
    { source := str "sendai_csv"
      source_id :=
        pyOrS r.entity_id
          (pyOrS r.uid (pyStrip (pyOrS r.name []) ++ pyOrS r.startDate []))
      title := pyStrip (pyOrS r.name [])
      summary := pyOrS r.summary []
      url := pyOrS r.detailedUrl []
      start_at := pyOrS r.startDate []
      area := str "仙台市"
      venue_name := pyOrS r.locationName []
      price_band := if freeMatch r then str "free" else str "unknown"
      tags_json := tagsJson (kidMatch r) (freeMatch r)
      kid_score := if kidMatch r then 80 else 60 }

/-- The sqlite database state for the `events` table created by the DDL
(build.py lines 85-100): the rows each tagged with their `id`, plus the
auto-increment sequence.  The DDL declares `id INTEGER PRIMARY KEY
AUTOINCREMENT`, so sqlite records the largest id ever allocated in
`sqlite_sequence` and a new row always gets `seq + 1`; `DELETE FROM events`
does not reset the sequence. -/
structure DBState where
  seq : Nat
  events : List (Nat × EventRow)
deriving DecidableEq

/-- One `INSERT INTO events` (build.py lines 159-178): the new row is
appended with the next auto-increment id. -/
def insertEvent (db : DBState) (e : EventRow) : DBState :=
  { seq := db.seq + 1, events := db.events ++ [(db.seq + 1, e)] }

/-- The insert loop over the processed rows. -/
def insertAll (db : DBState) : List EventRow → DBState
  | [] => db
  | e :: es => insertAll (insertEvent db e) es

/-- `import_sendai_events` (build.py lines 130-182) from the point the parsed
CSV rows are in hand: `DELETE FROM events` (line 135), then one insert per
row that passes the title filter, in order. -/
def import_sendai_events (db : DBState) (rows : List CsvRow) : DBState :=
  insertAll { db with events := [] } (rows.filterMap processRow)

/-! ## The fetcher's content check (build.py `download_csv`, lines 110-127) -/

/-- build.py line 124: `"<html" in text.lower()`. -/
def htmlShaped (text : Str) : Bool :=
  containsL (text.map pyLower) (str "<html")

/-- The tail of `download_csv` after the bytes are decoded into `text`
(build.py lines 124-127): raise `RuntimeError` when the text is HTML-shaped,
otherwise return the parsed records.  CSV parsing itself is Python's stdlib
`csv.DictReader`, abstracted here as the `parse` argument. -/
def download_csv_check (parse : Str → List CsvRow) (text : Str) :
    Except Str (List CsvRow) :=
  if htmlShaped text then Except.error (str "CSVではなくHTMLを取得しています")
  else Except.ok (parse text)

/-- Whether an `Except` result is the error case. -/
def isErr : Except ε α → Bool
  | Except.error _ => true
  | Except.ok _ => false

/-! ## The page builder (build.py `build_site`, lines 219-284) -/

/-- One row of the builder's SELECT (build.py line 239):
`title, summary, start_at, venue_name, url`. -/
structure SelRow where
  title : Str
  summary : Str
  start_at : Str
  venue_name : Str
  url : Str
deriving DecidableEq

/-- One display item (build.py line 252): the tuple
`(t, s, start_day, venue, url)` with `start_day` the first 10 characters of
`start_at`. -/
structure Item where
  title : Str
  summary : Str
  day : Str
  venue : Str
  url : Str
deriving DecidableEq

/-- build.py lines 248-252: take the first 10 characters of `start_at`; drop
the row when that prefix does not contain exactly two `-` (line 249-250),
otherwise form the display item. -/
def mkItem (r : SelRow) : Option Item :=
  if hyphCount (r.start_at.take 10) = 2 then
    some ⟨r.title, r.summary, r.start_at.take 10, r.venue_name, r.url⟩
  else none

/-- The display items of the table's rows, in table order. -/
def itemsOf (rows : List SelRow) : List Item := rows.filterMap mkItem

/-- The partition loop of build.py lines 245-257: `(future, past)`, each in
table order.  A row goes to `future` when `start_day >= today` (line 254). -/
def partitionRows (today : Str) : List SelRow → List Item × List Item
  | [] => ([], [])
  | r :: rs =>
    match mkItem r with
    | none => partitionRows today rs
    | some it =>
      if strLe today it.day then
        (it :: (partitionRows today rs).1, (partitionRows today rs).2)
      else
        ((partitionRows today rs).1, it :: (partitionRows today rs).2)

/-- build.py line 259: `show = future if future else past[-20:]`. -/
def buildShow (rows : List SelRow) (today : Str) : List Item :=
  if (partitionRows today rows).1.isEmpty then
    lastN 20 (partitionRows today rows).2
  else (partitionRows today rows).1

/-- build.py lines 264-267: the summary with newlines replaced by spaces,
stripped, truncated to 140 characters with a `…` marker. -/
def descOf (s : Str) : Str :=
  if 140 < (pyStrip (s.map nlSpace)).length then
    (pyStrip (s.map nlSpace)).take 140 ++ ['…']
  else pyStrip (s.map nlSpace)

/-- build.py lines 269-271: the card's title, wrapped in an anchor exactly
when the row's url is non-empty (`if url:`). -/
def titleHtml (t u : Str) : Str :=
  if u.isEmpty then escapeL t
  else
    joinL [str "<a href=\"", escapeL u,
           str "\" target=\"_blank\" rel=\"noopener noreferrer\">",
           escapeL t, str "</a>"]

/-- One card (the f-string of build.py lines 273-279). -/
def renderCard (it : Item) : Str :=
  joinL [str "\n<div class=\"card\">\n  <h3>",
         titleHtml it.title it.url,
         str "</h3>\n  <div class=\"meta\">",
         escapeL it.day, str " / ", escapeL it.venue,
         str "</div>\n  <div>", escapeL (descOf it.summary),
         str "</div>\n</div>\n"]

/-- The page body (build.py lines 261-279): the updated line, the heading
chosen on whether any future row exists (line 262), then one card per shown
item. -/
def bodyOf (rows : List SelRow) (today updated : Str) : Str :=
  joinL ([str "<p class=\x27meta\x27>更新: ", updated, str "</p>",
          if (partitionRows today rows).1.isEmpty then
            str "<h2>直近のイベント（過去）</h2>"
          else str "<h2>これからのイベント</h2>"]
         ++ (buildShow rows today).map renderCard)

/-- The `html(title, body)` template of build.py lines 187-206, with `v` the
cache-busting timestamp of line 188. -/
def htmlPage (title body v : Str) : Str :=
  joinL [str "<!doctype html>\n<html lang=\"ja\">\n<head>\n<meta charset=\"utf-8\">\n<meta name=\"viewport\" content=\"width=device-width, initial-scale=1\">\n<title>",
         escapeL title,
         str "</title>\n<link rel=\"stylesheet\" href=\"style.css?v=",
         v,
         str "\">\n</head>\n<body>\n<header><h1>宮城の子どもイベント</h1></header>\n<div class=\"container\">\n",
         body,
         str "\n</div>\n<footer>© miyagi-kids</footer>\n</body>\n</html>\n"]

/-- The full `index.html` document written by `build_site` (build.py lines
281-284), parameterised by the table rows, today's date string, and the two
timestamp strings. -/
def build_site_html (rows : List SelRow) (today updated v : Str) : Str :=
  htmlPage (str "宮城の子どもイベント") (bodyOf rows today updated) v

/-- The column names of the `events` table, from the DDL at build.py lines
85-100 (what `PRAGMA table_info(events)` lists at line 227). -/
def eventsCols : List Str :=
  [str "id", str "source", str "source_id", str "title", str "summary",
   str "url", str "start_at", str "area", str "venue_name", str "price_band",
   str "tags_json", str "kid_score"]

/-- The URL-column candidates of build.py lines 230-234, in priority order. -/
def url_candidates : List Str :=
  [str "detailedUrl", str "detailUrl", str "detailed_url", str "detail_url",
   str "url", str "event_url", str "link", str "source_url"]

/-- build.py line 235: the first candidate present in the schema. -/
def url_col : Option Str :=
  url_candidates.find? (fun c => eventsCols.contains c)

/-- Modelled from the spec's words "a `YYYY-MM-DD`-prefixed shape" (claim C8):
a 10-character string with digits in the year, month and day positions and
`-` separators.  This is the spec's shape notion, to be compared with the
source's two-hyphen test `hyphCount · = 2`. -/
def specDateShaped : Str → Bool
  | [y1, y2, y3, y4, h1, m1, m2, h2, d1, d2] =>
    y1.isDigit && y2.isDigit && y3.isDigit && y4.isDigit && h1 == '-' &&
    m1.isDigit && m2.isDigit && h2 == '-' && d1.isDigit && d2.isDigit
  | _ => false

/-- `sortedByDay items`: the shown items are in ascending order of their
date prefix (the ordering the spec asserts for the rendered page). -/
def sortedByDay : List Item → Bool
  | [] => true
  | [_] => true
  | a :: b :: t => strLe a.day b.day && sortedByDay (b :: t)

/-- `GoodL y l`: the string `l` neither contains the two-character pattern
`['<', y]` nor ends in `'<'`.  Closed under concatenation, this is the
invariant carrying the no-unescaped-markup claims through the template. -/
abbrev GoodL (y : Char) (l : Str) : Prop :=
  containsL l ['<', y] = false ∧ lastC l ≠ some '<'

/-- A concrete CSV row: non-empty title, the free keyword in the summary, no
child keyword. -/
def sampleFreeRow : CsvRow :=
  ⟨some (str "夏祭り"), some (str "無料の縁日"), some (str "2099-01-01"),
   some (str "公園"), none, none, none⟩

/-- The event row `sampleFreeRow` imports to. -/
def sampleFreeEvent : EventRow :=
  ⟨str "sendai_csv", str "夏祭り2099-01-01", str "夏祭り", str "無料の縁日",
   [], str "2099-01-01", str "仙台市", str "公園", str "free",
   str "\x7b\"free\": true\x7d", 60⟩

/-- A concrete CSV row whose title contains the child keyword 工作. -/
def sampleKidRow : CsvRow :=
  ⟨some (str "工作教室"), none, none, none, none, none, none⟩

/-- The event row `sampleKidRow` imports to. -/
def sampleKidEvent : EventRow :=
  ⟨str "sendai_csv", str "工作教室", str "工作教室", [], [], [],
   str "仙台市", [], str "unknown", str "\x7b\"elem\": true\x7d", 80⟩

/-- Twenty-one past-dated table rows in strictly descending date order: the
most recent date comes first, so `past[-20:]` drops it. -/
def descendingPastRows : List SelRow :=
  [⟨str "t", str "s", str "2020-01-21", str "v", str "u"⟩,
   ⟨str "t", str "s", str "2020-01-20", str "v", str "u"⟩,
   ⟨str "t", str "s", str "2020-01-19", str "v", str "u"⟩,
   ⟨str "t", str "s", str "2020-01-18", str "v", str "u"⟩,
   ⟨str "t", str "s", str "2020-01-17", str "v", str "u"⟩,
   ⟨str "t", str "s", str "2020-01-16", str "v", str "u"⟩,
   ⟨str "t", str "s", str "2020-01-15", str "v", str "u"⟩,
   ⟨str "t", str "s", str "2020-01-14", str "v", str "u"⟩,
   ⟨str "t", str "s", str "2020-01-13", str "v", str "u"⟩,
   ⟨str "t", str "s", str "2020-01-12", str "v", str "u"⟩,
   ⟨str "t", str "s", str "2020-01-11", str "v", str "u"⟩,
   ⟨str "t", str "s", str "2020-01-10", str "v", str "u"⟩,
   ⟨str "t", str "s", str "2020-01-09", str "v", str "u"⟩,
   ⟨str "t", str "s", str "2020-01-08", str "v", str "u"⟩,
   ⟨str "t", str "s", str "2020-01-07", str "v", str "u"⟩,
   ⟨str "t", str "s", str "2020-01-06", str "v", str "u"⟩,
   ⟨str "t", str "s", str "2020-01-05", str "v", str "u"⟩,
   ⟨str "t", str "s", str "2020-01-04", str "v", str "u"⟩,
   ⟨str "t", str "s", str "2020-01-03", str "v", str "u"⟩,
   ⟨str "t", str "s", str "2020-01-02", str "v", str "u"⟩,
   ⟨str "t", str "s", str "2020-01-01", str "v", str "u"⟩]

/-! ## String machinery: substring facts used by the escaping claims -/

theorem begins_nil_iff (p : Str) : begins [] p = true ↔ p = [] := by
  cases p <;> simp [begins]

theorem containsL_nil_pat (l : Str) : containsL l [] = true := by
  cases l <;> simp [containsL, begins]

theorem begins_append_left (p : Str) :
    ∀ l m : Str, begins l p = true → begins (l ++ m) p = true := by
  induction p with
  | nil => intro l m _; simp [begins]
  | cons d p ih =>
    intro l m h
    cases l with
    | nil => simp [begins] at h
    | cons c t =>
      simp only [begins, Bool.and_eq_true] at h
      simp only [List.cons_append, begins, Bool.and_eq_true]
      exact ⟨h.1, ih t m h.2⟩

theorem begins_pattern_mono (p q : Str) :
    ∀ l : Str, begins l (p ++ q) = true → begins l p = true := by
  induction p with
  | nil => intro l _; simp [begins]
  | cons d p ih =>
    intro l h
    cases l with
    | nil => simp [begins] at h
    | cons c t =>
      simp only [List.cons_append, begins, Bool.and_eq_true] at h
      simp only [begins, Bool.and_eq_true]
      exact ⟨h.1, ih t h.2⟩

theorem containsL_of_begins (l p : Str) (h : begins l p = true) :
    containsL l p = true := by
  cases l with
  | nil => exact h
  | cons c t => simp [containsL, h]

theorem containsL_append_left (p : Str) :
    ∀ l m : Str, containsL l p = true → containsL (l ++ m) p = true := by
  intro l
  induction l with
  | nil =>
    intro m h
    have : p = [] := (begins_nil_iff p).1 h
    subst this
    simpa using containsL_nil_pat m
  | cons c t ih =>
    intro m h
    simp only [containsL, Bool.or_eq_true] at h
    rcases h with h | h
    · have := begins_append_left p (c :: t) m h
      simpa [containsL] using Or.inl this
    · simp only [List.cons_append, containsL, Bool.or_eq_true]
      exact Or.inr (ih m h)

theorem containsL_append_right (p : Str) :
    ∀ l m : Str, containsL m p = true → containsL (l ++ m) p = true := by
  intro l
  induction l with
  | nil => intro m h; simpa using h
  | cons c t ih =>
    intro m h
    simp only [List.cons_append, containsL, Bool.or_eq_true]
    exact Or.inr (ih m h)

theorem containsL_pattern_mono (p q : Str) :
    ∀ l : Str, containsL l (p ++ q) = true → containsL l p = true := by
  intro l
  induction l with
  | nil =>
    intro h
    have := (begins_nil_iff (p ++ q)).1 h
    have hp : p = [] := by
      cases p with
      | nil => rfl
      | cons a b => simp at this
    subst hp
    simp [containsL, begins]
  | cons c t ih =>
    intro h
    simp only [containsL, Bool.or_eq_true] at h ⊢
    rcases h with h | h
    · exact Or.inl (begins_pattern_mono p q (c :: t) h)
    · exact Or.inr (ih h)

theorem containsL_head_not_mem (c : Char) (p : Str) :
    ∀ l : Str, c ∉ l → containsL l (c :: p) = false := by
  intro l
  induction l with
  | nil => intro _; simp [containsL, begins]
  | cons d t ih =>
    intro h
    have hdc : ¬(d = c) := fun he => h (by simp [he])
    have htc : c ∉ t := fun hm => h (List.mem_cons_of_mem d hm)
    simp [containsL, begins, hdc, ih htc]

theorem lastC_cons_ne_nil (c : Char) (l : Str) (h : l ≠ []) :
    lastC (c :: l) = lastC l := by
  cases l with
  | nil => exact absurd rfl h
  | cons d t => rfl

theorem lastC_mem (c : Char) : ∀ l : Str, lastC l = some c → c ∈ l := by
  intro l
  induction l with
  | nil => intro h; simp [lastC] at h
  | cons d t ih =>
    intro h
    cases t with
    | nil => simp [lastC] at h; simp [h]
    | cons e u =>
      rw [lastC_cons_ne_nil d (e :: u) (by simp)] at h
      exact List.mem_cons_of_mem d (ih h)

theorem goodL_nil (y : Char) : GoodL y [] := by
  constructor <;> simp [containsL, begins, lastC]

theorem goodL_append {y : Char} :
    ∀ a b : Str, GoodL y a → GoodL y b → GoodL y (a ++ b) := by
  intro a
  induction a with
  | nil => intro b _ hb; simpa using hb
  | cons c t ih =>
    intro b ha hb
    obtain ⟨ha1, ha2⟩ := ha
    simp only [containsL, Bool.or_eq_false_iff] at ha1
    obtain ⟨haB, haC⟩ := ha1
    have ht : GoodL y t := by
      refine ⟨haC, ?_⟩
      cases t with
      | nil => simp [lastC]
      | cons d u => rw [lastC_cons_ne_nil c (d :: u) (by simp)] at ha2; exact ha2
    obtain ⟨ih1, ih2⟩ := ih b ht hb
    constructor
    · simp only [List.cons_append, containsL, Bool.or_eq_false_iff]
      refine ⟨?_, ih1⟩
      by_cases hc : c = '<'
      · subst hc
        cases t with
        | nil => exact absurd rfl ha2
        | cons d u =>
          have hdy : ¬d = y := by simpa [begins] using haB
          simp [begins, hdy]
      · simp [begins, hc]
    · cases hb2 : t ++ b with
      | nil =>
        have hb0 : b = [] := by
          cases t <;> simp_all
        have ht0 : t = [] := by
          cases t <;> simp_all
        subst hb0; subst ht0
        simpa [lastC] using ha2
      | cons e u =>
        rw [List.cons_append, hb2, lastC_cons_ne_nil c (e :: u) (by simp), ← hb2]
        exact ih2

theorem goodL_join {y : Char} :
    ∀ ps : List Str, (∀ p ∈ ps, GoodL y p) → GoodL y (joinL ps) := by
  intro ps
  induction ps with
  | nil => intro _; exact goodL_nil y
  | cons s l ih =>
    intro h
    exact goodL_append s (joinL l) (h s (by simp))
      (ih (fun p hp => h p (List.mem_cons_of_mem s hp)))

theorem escapeChar_no_lt (c : Char) : '<' ∉ escapeChar c := by
  unfold escapeChar
  split_ifs with h1 h2 h3 h4 h5 <;> intro hm
  · revert hm; decide
  · revert hm; decide
  · revert hm; decide
  · revert hm; decide
  · revert hm; decide
  · rw [List.mem_singleton] at hm
    exact h2 hm.symm

theorem escapeL_no_lt : ∀ s : Str, '<' ∉ escapeL s := by
  intro s
  induction s with
  | nil => simp [escapeL]
  | cons c t ih =>
    simp only [escapeL]
    intro hm
    rcases List.mem_append.1 hm with h | h
    · exact escapeChar_no_lt c h
    · exact ih h

theorem goodL_of_no_lt (y : Char) (l : Str) (h : '<' ∉ l) : GoodL y l := by
  refine ⟨containsL_head_not_mem '<' [y] l h, fun he => ?_⟩
  exact h (lastC_mem '<' l he)

theorem goodL_escape (y : Char) (s : Str) : GoodL y (escapeL s) :=
  goodL_of_no_lt y (escapeL s) (escapeL_no_lt s)

/-! ## Structural facts about the partition loop and the insert loop -/

theorem partitionRows_eq (today : Str) :
    ∀ rows : List SelRow,
      partitionRows today rows =
        ((itemsOf rows).filter (fun it => strLe today it.day),
         (itemsOf rows).filter (fun it => !(strLe today it.day))) := by
  intro rows
  induction rows with
  | nil => rfl
  | cons r rs ih =>
    cases h : mkItem r with
    | none =>
      simp [partitionRows, h, ih, itemsOf, List.filterMap_cons]
    | some it =>
      by_cases hf : strLe today it.day = true
      · simp [partitionRows, h, ih, itemsOf, List.filterMap_cons,
          List.filter_cons, hf]
      · have hf' : strLe today it.day = false := by simpa using hf
        simp [partitionRows, h, ih, itemsOf, List.filterMap_cons,
          List.filter_cons, hf']

theorem mkItem_none_iff (r : SelRow) :
    mkItem r = none ↔ ¬hyphCount (r.start_at.take 10) = 2 := by
  unfold mkItem
  by_cases h : hyphCount (r.start_at.take 10) = 2 <;> simp [h]

theorem itemsOf_filter_wellformed :
    ∀ rows : List SelRow,
      itemsOf (rows.filter (fun r => hyphCount (r.start_at.take 10) == 2)) =
        itemsOf rows := by
  intro rows
  induction rows with
  | nil => rfl
  | cons r rs ih =>
    simp only [itemsOf] at ih ⊢
    by_cases h : hyphCount (r.start_at.take 10) = 2
    · rw [List.filter_cons_of_pos (by simp [h]), List.filterMap_cons,
        List.filterMap_cons, ih]
    · have hn : mkItem r = none := (mkItem_none_iff r).2 h
      rw [List.filter_cons_of_neg (by simp [h]), List.filterMap_cons, hn, ih]

theorem insertAll_events :
    ∀ (es : List EventRow) (db : DBState),
      (insertAll db es).events.map Prod.snd = db.events.map Prod.snd ++ es := by
  intro es
  induction es with
  | nil => intro db; simp [insertAll]
  | cons e es ih =>
    intro db
    rw [insertAll, ih]
    simp [insertEvent]

theorem insertAll_length :
    ∀ (es : List EventRow) (db : DBState),
      (insertAll db es).events.length = db.events.length + es.length := by
  intro es
  induction es with
  | nil => intro db; simp [insertAll]
  | cons e es ih =>
    intro db
    rw [insertAll, ih]
    simp [insertEvent]
    omega

theorem lastN_length_le (n : Nat) (l : List α) : (lastN n l).length ≤ n := by
  unfold lastN
  rw [List.length_drop]
  omega

theorem isDigit_ne_dash (c : Char) (h : c.isDigit = true) : (c == '-') = false := by
  cases hc : c == '-' with
  | false => rfl
  | true =>
    rw [eq_of_beq hc] at h
    exact absurd h (by decide)

theorem buildShow_of_future_ne (rows : List SelRow) (today : Str)
    (hfut : (partitionRows today rows).1 ≠ []) :
    buildShow rows today = (partitionRows today rows).1 := by
  unfold buildShow
  cases hL : (partitionRows today rows).1 with
  | nil => exact absurd hL hfut
  | cons a l => simp

theorem buildShow_of_future_nil (rows : List SelRow) (today : Str)
    (hfut : (partitionRows today rows).1 = []) :
    buildShow rows today = lastN 20 (partitionRows today rows).2 := by
  unfold buildShow
  rw [hfut]
  simp

/-! ## Goodness of the template pieces -/

theorem goodL_titleHtml_s (t u : Str) : GoodL 's' (titleHtml t u) := by
  unfold titleHtml
  by_cases h : u.isEmpty = true
  · rw [if_pos h]; exact goodL_escape 's' t
  · rw [if_neg h]
    apply goodL_join
    intro p hp
    simp only [List.mem_cons, List.not_mem_nil, or_false] at hp
    rcases hp with rfl | rfl | rfl | rfl | rfl
    · decide
    · exact goodL_escape 's' u
    · decide
    · exact goodL_escape 's' t
    · decide

theorem goodL_card_s (it : Item) : GoodL 's' (renderCard it) := by
  unfold renderCard
  apply goodL_join
  intro p hp
  simp only [List.mem_cons, List.not_mem_nil, or_false] at hp
  rcases hp with rfl | rfl | rfl | rfl | rfl | rfl | rfl | rfl | rfl
  · decide
  · exact goodL_titleHtml_s it.title it.url
  · decide
  · exact goodL_escape 's' it.day
  · decide
  · exact goodL_escape 's' it.venue
  · decide
  · exact goodL_escape 's' (descOf it.summary)
  · decide

theorem goodL_body_s (rows : List SelRow) (today updated : Str)
    (hu : '<' ∉ updated) : GoodL 's' (bodyOf rows today updated) := by
  unfold bodyOf
  apply goodL_join
  intro p hp
  rw [List.mem_append] at hp
  rcases hp with hp | hp
  · simp only [List.mem_cons, List.not_mem_nil, or_false] at hp
    rcases hp with rfl | rfl | rfl | rfl
    · decide
    · exact goodL_of_no_lt _ _ hu
    · decide
    · by_cases hc : (partitionRows today rows).1.isEmpty = true
      · rw [if_pos hc]; decide
      · rw [if_neg hc]; decide
  · rw [List.mem_map] at hp
    obtain ⟨it, _, rfl⟩ := hp
    exact goodL_card_s it

theorem goodL_doc_s (rows : List SelRow) (today updated v : Str)
    (hu : '<' ∉ updated) (hv : '<' ∉ v) :
    GoodL 's' (build_site_html rows today updated v) := by
  unfold build_site_html htmlPage
  apply goodL_join
  intro p hp
  simp only [List.mem_cons, List.not_mem_nil, or_false] at hp
  rcases hp with rfl | rfl | rfl | rfl | rfl | rfl | rfl
  · decide
  · exact goodL_escape 's' (str "宮城の子どもイベント")
  · decide
  · exact goodL_of_no_lt _ _ hv
  · decide
  · exact goodL_body_s rows today updated hu
  · decide

theorem goodL_card_a_of_empty (it : Item) (h : it.url.isEmpty = true) :
    GoodL 'a' (renderCard it) := by
  unfold renderCard
  apply goodL_join
  intro p hp
  simp only [List.mem_cons, List.not_mem_nil, or_false] at hp
  rcases hp with rfl | rfl | rfl | rfl | rfl | rfl | rfl | rfl | rfl
  · decide
  · unfold titleHtml; rw [if_pos h]; exact goodL_escape 'a' it.title
  · decide
  · exact goodL_escape 'a' it.day
  · decide
  · exact goodL_escape 'a' it.venue
  · decide
  · exact goodL_escape 'a' (descOf it.summary)
  · decide

/-! ## The claims -/

/-- Claim C1: the page is claimed to list exactly the future-dated rows,
sorted ascending by date prefix, whenever both past- and future-dated rows
exist.  The exact-listing part holds, but `build_site` never sorts `future`:
the rows appear in table order.  This is the amended statement: under the
claim's hypotheses the shown list is exactly the future-dated well-formed
rows in table order. -/
theorem future_rows_shown_exactly_in_table_order
    (rows : List SelRow) (today : Str)
    (_hpast : (partitionRows today rows).2 ≠ [])
    (hfut : (partitionRows today rows).1 ≠ []) :
    buildShow rows today =
      (itemsOf rows).filter (fun it => strLe today it.day) := by
  rw [buildShow_of_future_ne rows today hfut, partitionRows_eq]

/-- Witness for C1's amended theorem at a concrete two-row table. -/
theorem future_rows_shown_exactly_witness :
    (partitionRows (str "2025-06-01")
      [⟨str "A", str "s", str "2099-02-02", str "v", str "u"⟩,
       ⟨str "C", str "s", str "2000-01-01", str "v", str "u"⟩]).2 ≠ [] ∧
    (partitionRows (str "2025-06-01")
      [⟨str "A", str "s", str "2099-02-02", str "v", str "u"⟩,
       ⟨str "C", str "s", str "2000-01-01", str "v", str "u"⟩]).1 ≠ [] ∧
    buildShow
      [⟨str "A", str "s", str "2099-02-02", str "v", str "u"⟩,
       ⟨str "C", str "s", str "2000-01-01", str "v", str "u"⟩]
      (str "2025-06-01") =
      (itemsOf
        [⟨str "A", str "s", str "2099-02-02", str "v", str "u"⟩,
         ⟨str "C", str "s", str "2000-01-01", str "v", str "u"⟩]).filter
        (fun it => strLe (str "2025-06-01") it.day) :=
  ⟨by decide, by decide,
   future_rows_shown_exactly_in_table_order _ _ (by decide) (by decide)⟩

/-- Counterexample to claim C1 as stated: a table with one past row and two
future rows whose dates are in descending table order.  Both display classes
are non-empty, yet the shown list is not sorted ascending by date prefix. -/
theorem future_rows_not_sorted_cex :
    (partitionRows (str "2025-06-01")
      [⟨str "A", str "s", str "2099-02-02", str "v", str "u"⟩,
       ⟨str "B", str "s", str "2099-01-01", str "v", str "u"⟩,
       ⟨str "C", str "s", str "2000-01-01", str "v", str "u"⟩]).1 ≠ [] ∧
    (partitionRows (str "2025-06-01")
      [⟨str "A", str "s", str "2099-02-02", str "v", str "u"⟩,
       ⟨str "B", str "s", str "2099-01-01", str "v", str "u"⟩,
       ⟨str "C", str "s", str "2000-01-01", str "v", str "u"⟩]).2 ≠ [] ∧
    sortedByDay (buildShow
      [⟨str "A", str "s", str "2099-02-02", str "v", str "u"⟩,
       ⟨str "B", str "s", str "2099-01-01", str "v", str "u"⟩,
       ⟨str "C", str "s", str "2000-01-01", str "v", str "u"⟩]
      (str "2025-06-01")) = false := by decide

/-- Claim C2 (amended): when no well-formed row is future-dated, the page
shows `past[-20:]` — the last at-most-20 past-dated rows in table order.
Selection is by position, not by date, and the shown rows are not re-sorted
(the original claim's "most recent … sorted ascending" fails, see the
counterexample). -/
theorem past_fallback_last20_in_table_order
    (rows : List SelRow) (today : Str)
    (hfut : (partitionRows today rows).1 = []) :
    buildShow rows today =
      lastN 20 ((itemsOf rows).filter (fun it => !(strLe today it.day))) ∧
    (buildShow rows today).length ≤ 20 := by
  have h1 := buildShow_of_future_nil rows today hfut
  constructor
  · rw [h1, partitionRows_eq]
  · rw [h1]; exact lastN_length_le 20 _

/-- Witness for C2's amended theorem at a concrete all-past table. -/
theorem past_fallback_last20_witness :
    (partitionRows (str "2025-06-01")
      [⟨str "C", str "s", str "2000-01-02", str "v", str "u"⟩,
       ⟨str "D", str "s", str "2000-01-01", str "v", str "u"⟩]).1 = [] ∧
    buildShow
      [⟨str "C", str "s", str "2000-01-02", str "v", str "u"⟩,
       ⟨str "D", str "s", str "2000-01-01", str "v", str "u"⟩]
      (str "2025-06-01") =
      lastN 20 ((itemsOf
        [⟨str "C", str "s", str "2000-01-02", str "v", str "u"⟩,
         ⟨str "D", str "s", str "2000-01-01", str "v", str "u"⟩]).filter
        (fun it => !(strLe (str "2025-06-01") it.day))) ∧
    (buildShow
      [⟨str "C", str "s", str "2000-01-02", str "v", str "u"⟩,
       ⟨str "D", str "s", str "2000-01-01", str "v", str "u"⟩]
      (str "2025-06-01")).length ≤ 20 :=
  ⟨by decide,
   (past_fallback_last20_in_table_order _ _ (by decide)).1,
   (past_fallback_last20_in_table_order _ _ (by decide)).2⟩

/-- Counterexample to claim C2 as stated: 21 past-dated rows in strictly
descending date order.  All well-formed rows are past-dated, yet the shown
list is not sorted ascending, and the most recent row (date 2020-01-21, the
first inserted) is not shown at all — `past[-20:]` keeps the last 20 by
position, which here are the 20 oldest. -/
theorem past_fallback_not_most_recent_cex :
    (partitionRows (str "2025-06-01") descendingPastRows).1 = [] ∧
    sortedByDay (buildShow descendingPastRows (str "2025-06-01")) = false ∧
    (⟨str "t", str "s", str "2020-01-21", str "v", str "u"⟩ : Item) ∉
      buildShow descendingPastRows (str "2025-06-01") := by decide

/-- Claim C3 (amended): re-running the import with the same CSV leaves the
events table with the same number of rows and identical contents in every
inserted column (everything except the auto-increment id, which differs —
see the counterexample). -/
theorem reimport_same_count_and_content (db : DBState) (rows : List CsvRow) :
    (import_sendai_events (import_sendai_events db rows) rows).events.length =
      (import_sendai_events db rows).events.length ∧
    ((import_sendai_events (import_sendai_events db rows) rows).events.map
        Prod.snd) =
      ((import_sendai_events db rows).events.map Prod.snd) := by
  unfold import_sendai_events
  constructor
  · rw [insertAll_length, insertAll_length]
  · rw [insertAll_events, insertAll_events]

/-- Counterexample to claim C3 as stated: one import of a one-row CSV from
the empty store gives the row id 1; the second import deletes it and
re-inserts with id 2, because `id INTEGER PRIMARY KEY AUTOINCREMENT` never
reuses ids.  The table contents (id included) therefore differ between the
two runs. -/
theorem reimport_ids_differ_cex :
    (import_sendai_events
      (import_sendai_events ⟨0, []⟩
        [⟨some (str "a"), none, none, none, none, none, none⟩])
      [⟨some (str "a"), none, none, none, none, none, none⟩]).events ≠
    (import_sendai_events ⟨0, []⟩
      [⟨some (str "a"), none, none, none, none, none, none⟩]).events := by
  decide

/-- Claim C4: every rendered text field goes through `html.escape`, so the
substring `<script>` never occurs in the produced document, whatever the
table contents — in particular for a stored record whose title contains
`<script>`.  The two hypotheses say the page's own timestamp strings (from
`strftime`, hence digits, spaces, `-` and `:`) contain no `<`. -/
theorem rendered_page_never_contains_script_tag
    (rows : List SelRow) (today updated v : Str)
    (hu : '<' ∉ updated) (hv : '<' ∉ v) :
    containsL (build_site_html rows today updated v) (str "<script>") = false := by
  have g := goodL_doc_s rows today updated v hu hv
  cases hfin : containsL (build_site_html rows today updated v) (str "<script>") with
  | false => rfl
  | true =>
    have h8 : str "<script>" = ['<', 's'] ++ str "cript>" := rfl
    rw [h8] at hfin
    have h2 := containsL_pattern_mono ['<', 's'] (str "cript>") _ hfin
    exact Bool.noConfusion (h2.symm.trans g.1)

/-- Witness for C4 at a table whose stored title is literally
`<script>alert(1)</script>`. -/
theorem rendered_page_never_contains_script_tag_witness :
    ('<' ∉ str "2025-06-01 12:00") ∧ ('<' ∉ str "202506011200") ∧
    containsL
      (build_site_html
        [⟨str "<script>alert(1)</script>", str "s", str "2099-01-01",
          str "v", str "u"⟩]
        (str "2025-06-01") (str "2025-06-01 12:00") (str "202506011200"))
      (str "<script>") = false :=
  ⟨by decide, by decide,
   rendered_page_never_contains_script_tag _ _ _ _ (by decide) (by decide)⟩

/-- Claim C5: the table receives exactly one row per CSV row whose `name`
is non-empty after stripping, in order, and nothing (and no error — the
functions are total) for a row whose `name` is absent, empty or
whitespace-only. -/
theorem import_stores_iff_title_nonempty (db : DBState) (rows : List CsvRow) :
    (import_sendai_events db rows).events.map Prod.snd =
      rows.filterMap processRow ∧
    ∀ r : CsvRow, (processRow r).isSome = !(pyStrip (pyOrS r.name [])).isEmpty := by
  constructor
  · unfold import_sendai_events
    rw [insertAll_events]
    rfl
  · intro r
    unfold processRow
    cases h : (pyStrip (pyOrS r.name [])).isEmpty <;> simp [h]

/-- Claim C6: a stored record's price band is `free` exactly when the
concatenation of its (stored, stripped) title and summary contains 無料, and
`unknown` otherwise; no other value exists. -/
theorem price_band_free_iff_keyword (r : CsvRow) (e : EventRow)
    (h : processRow r = some e) :
    e.price_band =
      if containsL (e.title ++ e.summary) (str "無料") then str "free"
      else str "unknown" := by
  unfold processRow at h
  split at h
  · exact Option.noConfusion h
  · injection h with h'
    subst h'
    rfl

/-- Witness for C6 at a concrete free-keyword row. -/
theorem price_band_free_iff_keyword_witness :
    processRow sampleFreeRow = some sampleFreeEvent ∧
    sampleFreeEvent.price_band =
      if containsL (sampleFreeEvent.title ++ sampleFreeEvent.summary)
          (str "無料") then str "free"
      else str "unknown" :=
  ⟨by decide, price_band_free_iff_keyword sampleFreeRow sampleFreeEvent (by decide)⟩

/-- Claim C7: a stored record's kid score is 80 exactly when the
concatenation of its (stored) title and summary contains one of the five
child-oriented keywords, and 60 otherwise; no other value exists. -/
theorem kid_score_two_valued (r : CsvRow) (e : EventRow)
    (h : processRow r = some e) :
    e.kid_score =
      if kidKeywords.any (fun k => containsL (e.title ++ e.summary) k) then 80
      else 60 := by
  unfold processRow at h
  split at h
  · exact Option.noConfusion h
  · injection h with h'
    subst h'
    rfl

/-- Witness for C7 at a concrete child-keyword row. -/
theorem kid_score_two_valued_witness :
    processRow sampleKidRow = some sampleKidEvent ∧
    sampleKidEvent.kid_score =
      if kidKeywords.any
          (fun k => containsL (sampleKidEvent.title ++ sampleKidEvent.summary) k)
        then 80 else 60 :=
  ⟨by decide, kid_score_two_valued sampleKidRow sampleKidEvent (by decide)⟩

/-- Claim C8 (amended): the builder drops a stored record exactly when the
first 10 characters of its start string do not contain exactly two hyphens
(no error either way: the embedding is total).  Every `YYYY-MM-DD`-shaped
prefix passes this test, but the test is weaker than the shape: see the
counterexample for a kept malformed prefix. -/
theorem malformed_rows_dropped_iff_two_hyphens (rows : List SelRow)
    (today : Str) :
    buildShow rows today =
      buildShow (rows.filter (fun r => hyphCount (r.start_at.take 10) == 2))
        today ∧
    ∀ p : Str, specDateShaped p = true → hyphCount p = 2 := by
  constructor
  · unfold buildShow
    rw [partitionRows_eq, partitionRows_eq, itemsOf_filter_wellformed]
  · intro p hp
    rcases p with _|⟨a, _|⟨b, _|⟨c, _|⟨d, _|⟨q1, _|⟨f, _|⟨g, _|⟨q2, _|⟨i, _|⟨j, rest⟩⟩⟩⟩⟩⟩⟩⟩⟩⟩ <;>
      try exact Bool.noConfusion hp
    cases rest with
    | cons x xs => exact Bool.noConfusion hp
    | nil =>
      simp only [specDateShaped, Bool.and_eq_true, beq_iff_eq] at hp
      obtain ⟨⟨⟨⟨⟨⟨⟨⟨⟨ha, hb⟩, hc⟩, hd⟩, hq1⟩, hf⟩, hg⟩, hq2⟩, hi⟩, hj⟩ := hp
      subst hq1
      subst hq2
      simp [hyphCount, List.count_cons, isDigit_ne_dash a ha,
        isDigit_ne_dash b hb, isDigit_ne_dash c hc, isDigit_ne_dash d hd,
        isDigit_ne_dash f hf, isDigit_ne_dash g hg, isDigit_ne_dash i hi,
        isDigit_ne_dash j hj]

/-- Counterexample to claim C8 as stated: the prefix `ab-cd-efgh` is not
`YYYY-MM-DD`-shaped, yet it contains exactly two hyphens, so the row is kept
and shown rather than excluded. -/
theorem two_hyphen_garbage_prefix_kept_cex :
    specDateShaped ((str "ab-cd-efgh").take 10) = false ∧
    buildShow [⟨str "t", str "s", str "ab-cd-efgh", str "v", str "u"⟩]
      (str "2025-01-01") =
      [⟨str "t", str "s", str "ab-cd-efgh", str "v", str "u"⟩] := by decide

/-- Claim C9: from the point the response bytes are decoded to `text`,
`download_csv` raises its fatal `RuntimeError` exactly when `text.lower()`
contains `<html`; in the raising case no records are produced (the result is
the error, whatever the CSV parser would do). -/
theorem download_raises_iff_html_shaped (parse : Str → List CsvRow)
    (text : Str) :
    isErr (download_csv_check parse text) = htmlShaped text ∧
    (htmlShaped text = true →
      download_csv_check parse text =
        Except.error (str "CSVではなくHTMLを取得しています")) := by
  unfold download_csv_check
  cases h : htmlShaped text <;> simp [h, isErr]

/-- Claim C10: the URL-column probe finds `url` (present in the DDL schema,
while the four higher-priority candidates are not), so the no-URL fallback
branch is unreachable; and a rendered card contains an anchor exactly when
the row's stored url string is non-empty. -/
theorem url_probe_selects_url_and_links_iff_nonempty :
    url_col = some (str "url") ∧
    ∀ it : Item, containsL (renderCard it) (str "<a href=") = !it.url.isEmpty := by
  refine ⟨by decide, fun it => ?_⟩
  cases h : it.url.isEmpty with
  | true =>
    have g := goodL_card_a_of_empty it h
    simp only [Bool.not_true]
    cases hfin : containsL (renderCard it) (str "<a href=") with
    | false => rfl
    | true =>
      have h8 : str "<a href=" = ['<', 'a'] ++ str " href=" := rfl
      rw [h8] at hfin
      have h2 := containsL_pattern_mono ['<', 'a'] (str " href=") _ hfin
      exact Bool.noConfusion (h2.symm.trans g.1)
  | false =>
    simp only [Bool.not_false]
    have ht : containsL (titleHtml it.title it.url) (str "<a href=") = true := by
      unfold titleHtml
      rw [if_neg (by simp [h])]
      simp only [joinL]
      apply containsL_of_begins
      apply begins_append_left
      decide
    unfold renderCard
    simp only [joinL]
    apply containsL_append_right
    apply containsL_append_left
    exact ht

end MiyagiKids
